import Mathlib

/-!
Verification development for the M&A news aggregator (`StockNoti.py`).

The embedding models the single module `StockNoti.py`:
* `FeedItem` is one `<item>` of a parsed RSS document; each field is
  `Option String` because `item.find(tag)` may return `None`.
* `Transport` is the outcome of the `requests.get` call: the two exception
  classes the spec names (timeout, connection error) or a response carrying
  a status code and the items BeautifulSoup finds in its body.  The Python
  code never inspects `response.status_code`, and the model keeps the status
  only to make that observable.
* `parseRFC822` models
  `datetime.strptime(s, "%a, %d %b %Y %H:%M:%S %z")`: the CPython
  `_strptime` regex for this exact format (case-insensitive names,
  1–2 digit numeric fields with range checks, exactly 4-digit year,
  `\s+` for a space in the format, offset `±HH[:]MM[[:]SS]` or `Z`,
  full-string match), followed by the `datetime` constructor's
  calendar validation.
* `toEpoch` converts an aware parsed timestamp to seconds since the Unix
  epoch (days via the standard civil-from-days algorithm), so that aware
  `datetime` subtraction becomes integer subtraction; `tdDays` is Python's
  `timedelta.days`, i.e. flooring division by 86400.
* Each fetcher is the Python closure over the shared `results` list,
  modelled by explicit state passing: it receives the accumulated record
  list and returns the new list together with the lines it printed.
-/

namespace StockNoti

/-- One `<item>` of the parsed feed: `item.find("title")`,
`item.find("description")`, `item.find("link")`, `item.find("pubDate")`
(`none` when the tag is absent, otherwise its text). -/
structure FeedItem where
  title : Option String
  description : Option String
  link : Option String
  pubDate : Option String
deriving DecidableEq

/-- The dict each fetcher appends to `results`. -/
structure NewsRecord where
  fuente : String
  titulo : String
  descripcion : String
  url : String
  fecha : String
deriving DecidableEq

/-- Outcome of `requests.get(url, headers=headers, timeout=10)` followed by
BeautifulSoup parsing: a raised exception (timeout / connection error, with
the exception text) or a response with its HTTP status code and the list of
`<item>` elements found in the body.  The source never raises for status,
so a non-2xx response is still a `response`. -/
inductive Transport where
  | timeout (msg : String)
  | connError (msg : String)
  | response (status : Nat) (items : List FeedItem)
deriving DecidableEq

/-- An aware broken-down timestamp as produced by
`datetime.strptime(_, "%a, %d %b %Y %H:%M:%S %z")`:
calendar fields plus the UTC offset in seconds. -/
structure Tm where
  year : Nat
  month : Nat
  day : Nat
  hour : Nat
  minute : Nat
  second : Nat
  tz : Int
deriving DecidableEq

/-! ### Character-level helpers (Python string slicing / lowering / `in`) -/

/-- Python's `s[:n]`: the first `n` code points of `s`. -/
def strTake (n : Nat) (s : String) : String :=
  String.mk (s.data.take n)

/-- Python's `s.lower()` restricted to ASCII case folding. -/
def strLower (s : String) : String :=
  String.mk (s.data.map Char.toLower)

/-- Does the haystack start with the needle? -/
def listStarts : List Char → List Char → Bool
  | [], _ => true
  | _ :: _, [] => false
  | a :: as, b :: bs => a == b && listStarts as bs

/-- Python's `needle in hay` for strings: contiguous substring. -/
def strHas (needle : List Char) : List Char → Bool
  | [] => listStarts needle []
  | b :: bs => listStarts needle (b :: bs) || strHas needle bs

/-! ### The `strptime` model -/

/-- Abbreviated weekday names matched by `%a`. -/
def weekdayNames : List String := ["Mon", "Tue", "Wed", "Thu", "Fri", "Sat", "Sun"]

/-- Abbreviated month names matched by `%b`; position + 1 is the month number. -/
def monthNames : List String :=
  ["Jan", "Feb", "Mar", "Apr", "May", "Jun", "Jul", "Aug", "Sep", "Oct", "Nov", "Dec"]

/-- Strip `name` from the front of the input, case-insensitively
(`_strptime` compiles its regex with `IGNORECASE`). -/
def stripNameCI : List Char → List Char → Option (List Char)
  | [], rest => some rest
  | _ :: _, [] => none
  | a :: as, b :: bs => if a.toLower == b.toLower then stripNameCI as bs else none

/-- Try each name in turn; return its 0-based position and the rest of the input. -/
def matchNameAux : List String → Nat → List Char → Option (Nat × List Char)
  | [], _, _ => none
  | n :: ns, i, cs =>
    match stripNameCI n.data cs with
    | some rest => some (i, rest)
    | none => matchNameAux ns (i + 1) cs

def digitVal (c : Char) : Nat := c.toNat - '0'.toNat

/-- A 1- or 2-digit numeric field (`%d`, `%H`, `%M`, `%S`): greedily take two
digits when available, else one.  Range checks happen afterwards. -/
def parseDigits2 : List Char → Option (Nat × List Char)
  | [] => none
  | a :: rest =>
    if a.isDigit then
      match rest with
      | b :: rest2 =>
        if b.isDigit then some (10 * digitVal a + digitVal b, rest2)
        else some (digitVal a, rest)
      | [] => some (digitVal a, [])
    else none

/-- `%Y`: exactly four digits. -/
def parseDigits4 : List Char → Option (Nat × List Char)
  | a :: b :: c :: d :: rest =>
    if a.isDigit && b.isDigit && c.isDigit && d.isDigit then
      some (1000 * digitVal a + 100 * digitVal b + 10 * digitVal c + digitVal d, rest)
    else none
  | _ => none

/-- A space in the format becomes `\s+`: at least one whitespace character,
then as many as are present. -/
def skipWs1 : List Char → Option (List Char)
  | c :: rest => if c.isWhitespace then some (rest.dropWhile Char.isWhitespace) else none
  | [] => none

/-- A literal (non-letter) character of the format. -/
def expectChar (c : Char) : List Char → Option (List Char)
  | b :: rest => if b == c then some rest else none
  | [] => none

/-- Exactly two digits, returned with the rest. -/
def twoDigits : List Char → Option (Nat × List Char)
  | a :: b :: rest =>
    if a.isDigit && b.isDigit then some (10 * digitVal a + digitVal b, rest) else none
  | _ => none

/-- The optional seconds part of a `%z` offset: `[:?][0-5]\d`, or nothing. -/
def parseZSeconds (cs : List Char) : Nat × List Char :=
  let core : List Char → Nat × List Char := fun ds =>
    match twoDigits ds with
    | some (n, rest) => if n ≤ 59 then (n, rest) else (0, cs)
    | none => (0, cs)
  match cs with
  | ':' :: ds => core ds
  | ds => core ds

/-- `%z`: `[+-]\d\d:?[0-5]\d(:?[0-5]\d)?` or the literal `Z`.  Returns the
offset in seconds; the `timezone` constructor additionally requires the
offset to be strictly less than one day in magnitude. -/
def parseZ : List Char → Option (Int × List Char)
  | 'Z' :: rest => some (0, rest)
  | c :: cs =>
    if c == '+' || c == '-' then
      match twoDigits cs with
      | some (hh, cs2) =>
        let cs3 := match cs2 with
          | ':' :: ds => ds
          | ds => ds
        match twoDigits cs3 with
        | some (mm, cs4) =>
          if mm ≤ 59 then
            let (ss, cs5) := parseZSeconds cs4
            let mag : Int := (hh * 3600 + mm * 60 + ss : Nat)
            let off := if c == '-' then -mag else mag
            if mag < 86400 then some (off, cs5) else none
          else none
        | none => none
      | none => none
    else none
  | [] => none

def isLeap (y : Nat) : Bool :=
  y % 4 == 0 && (y % 100 != 0 || y % 400 == 0)

def daysInMonth (y m : Nat) : Nat :=
  if m == 2 then (if isLeap y then 29 else 28)
  else if m == 4 || m == 6 || m == 9 || m == 11 then 30
  else 31

/-- `"%a, %d %b %Y"`: weekday name, comma, day, month name, 4-digit year.
Returns day, month number, year and the rest of the input. -/
def parseDatePart (cs : List Char) : Option (Nat × Nat × Nat × List Char) := do
  let (_wd, r1) ← matchNameAux weekdayNames 0 cs
  let r2 ← expectChar ',' r1
  let r3 ← skipWs1 r2
  let (day, r4) ← parseDigits2 r3
  let r5 ← skipWs1 r4
  let (moIdx, r6) ← matchNameAux monthNames 0 r5
  let r7 ← skipWs1 r6
  let (year, r8) ← parseDigits4 r7
  pure (day, moIdx + 1, year, r8)

/-- `" %H:%M:%S %z"`: hour, minute, second and UTC offset.  Returns them
with the rest of the input. -/
def parseTimePart (cs : List Char) : Option (Nat × Nat × Nat × Int × List Char) := do
  let r9 ← skipWs1 cs
  let (hour, r10) ← parseDigits2 r9
  let r11 ← expectChar ':' r10
  let (minute, r12) ← parseDigits2 r11
  let r13 ← expectChar ':' r12
  let (second, r14) ← parseDigits2 r13
  let r15 ← skipWs1 r14
  let (tz, r16) ← parseZ r15
  pure (hour, minute, second, tz, r16)

/-- `datetime.strptime(s, "%a, %d %b %Y %H:%M:%S %z")`, including the
`datetime` constructor's validation; `none` is the `ValueError` the Python
code catches per item. -/
def parseRFC822 (s : String) : Option Tm := do
  let (day, month, year, rest) ← parseDatePart s.data
  let (hour, minute, second, tz, r16) ← parseTimePart rest
  guard (r16 = [])
  guard (1 ≤ year ∧ year ≤ 9999)
  guard (1 ≤ day ∧ day ≤ daysInMonth year month)
  guard (hour ≤ 23 ∧ minute ≤ 59 ∧ second ≤ 59)
  pure { year := year, month := month, day := day,
         hour := hour, minute := minute, second := second, tz := tz }

/-- Days from 1970-01-01 of a civil date with `year ≥ 1`
(standard civil-from-days algorithm). -/
def daysFromCivil (y m d : Nat) : Int :=
  let yAdj := if m ≤ 2 then y - 1 else y
  let era := yAdj / 400
  let yoe := yAdj % 400
  let mp := if m > 2 then m - 3 else m + 9
  let doy := (153 * mp + 2) / 5 + (d - 1)
  let doe := yoe * 365 + yoe / 4 - yoe / 100 + doy
  (era * 146097 + doe : Nat) - (719468 : Int)

/-- Seconds since the Unix epoch of an aware timestamp: aware `datetime`
subtraction in Python is subtraction of these absolute values. -/
def toEpoch (t : Tm) : Int :=
  daysFromCivil t.year t.month t.day * 86400
    + ((t.hour * 3600 + t.minute * 60 + t.second : Nat) : Int) - t.tz

/-- Python's `timedelta.days` on a delta of `d` seconds: flooring division. -/
def tdDays (d : Int) : Int := Int.fdiv d 86400

/-! ### The three fetchers -/

/-- The dict `fetch_reuters_ma` appends for a kept item: each missing field
defaults to `"N/A"`, the description is cut to its first 200 characters,
`fecha` is the raw `pubDate` text (`""` when the tag is absent). -/
def reutersRecord (item : FeedItem) : NewsRecord :=
  { fuente := "Reuters"
  , titulo := item.title.getD "N/A"
  , descripcion := match item.description with
      | some d => strTake 200 d
      | none => "N/A"
  , url := item.link.getD "N/A"
  , fecha := item.pubDate.getD "" }

/-- The body of one iteration of `fetch_reuters_ma`'s loop: `some record`
when the item passes `strptime` and the 7-day check, `none` when it is
silently dropped (`except Exception: pass`). -/
def emitReuters (now : Int) (item : FeedItem) : Option NewsRecord :=
  match parseRFC822 (item.pubDate.getD "") with
  | none => none
  | some tm =>
    if tdDays (now - toEpoch tm) ≤ 7 then some (reutersRecord item)
    else none

/-- `fetch_marketwatch_ma`'s keyword list. -/
def keywords : List String :=
  ["merger", "acquisition", "acquires", "merges", "takeover", "buyout",
   "fusión", "adquisición"]

/-- `any(kw.lower() in title.lower() for kw in keywords)`. -/
def kwMatch (title : String) : Bool :=
  keywords.any fun kw => strHas (strLower kw).data (strLower title).data

/-- The dict `fetch_marketwatch_ma` appends: here `titulo` is the raw title
(`""` when the tag is absent — the `title` local, not an `"N/A"` default). -/
def marketwatchRecord (item : FeedItem) : NewsRecord :=
  { fuente := "MarketWatch"
  , titulo := item.title.getD ""
  , descripcion := match item.description with
      | some d => strTake 200 d
      | none => "N/A"
  , url := item.link.getD "N/A"
  , fecha := item.pubDate.getD "" }

/-- The body of one iteration of `fetch_marketwatch_ma`'s loop. -/
def emitMarketwatch (now : Int) (item : FeedItem) : Option NewsRecord :=
  if kwMatch (item.title.getD "") then
    match parseRFC822 (item.pubDate.getD "") with
    | none => none
    | some tm =>
      if tdDays (now - toEpoch tm) ≤ 7 then some (marketwatchRecord item)
      else none
  else none

/-- The dict `fetch_prnewswire_ma` appends, same defaults as Reuters. -/
def prnewswireRecord (item : FeedItem) : NewsRecord :=
  { fuente := "PR Newswire"
  , titulo := item.title.getD "N/A"
  , descripcion := match item.description with
      | some d => strTake 200 d
      | none => "N/A"
  , url := item.link.getD "N/A"
  , fecha := item.pubDate.getD "" }

/-- The body of one iteration of `fetch_prnewswire_ma`'s loop. -/
def emitPrnewswire (now : Int) (item : FeedItem) : Option NewsRecord :=
  match parseRFC822 (item.pubDate.getD "") with
  | none => none
  | some tm =>
    if tdDays (now - toEpoch tm) ≤ 7 then some (prnewswireRecord item)
    else none

/-- The `for item in items:` loop: `results.append(record)` for each item the
emit function keeps, in order. -/
def appendLoop (emit : FeedItem → Option NewsRecord)
    (items : List FeedItem) (results : List NewsRecord) : List NewsRecord :=
  items.foldl
    (fun acc it =>
      match emit it with
      | some r => acc ++ [r]
      | none => acc)
    results

/-- `fetch_reuters_ma`: on a raised exception, print `[Reuters] Error: …` and
leave `results` unchanged; on a response (status code never inspected), run
the loop over the first 10 items.  Returns the new `results` and the printed
lines. -/
def fetch_reuters_ma (now : Int) (t : Transport) (results : List NewsRecord) :
    List NewsRecord × List String :=
  match t with
  | .timeout e => (results, ["[Reuters] Error: " ++ e])
  | .connError e => (results, ["[Reuters] Error: " ++ e])
  | .response _status items => (appendLoop (emitReuters now) (items.take 10) results, [])

/-- `fetch_marketwatch_ma`: same shape, no item cap, keyword filter in the
emit function. -/
def fetch_marketwatch_ma (now : Int) (t : Transport) (results : List NewsRecord) :
    List NewsRecord × List String :=
  match t with
  | .timeout e => (results, ["[MarketWatch] Error: " ++ e])
  | .connError e => (results, ["[MarketWatch] Error: " ++ e])
  | .response _status items => (appendLoop (emitMarketwatch now) items results, [])

/-- `fetch_prnewswire_ma`: same shape as Reuters. -/
def fetch_prnewswire_ma (now : Int) (t : Transport) (results : List NewsRecord) :
    List NewsRecord × List String :=
  match t with
  | .timeout e => (results, ["[PR Newswire] Error: " ++ e])
  | .connError e => (results, ["[PR Newswire] Error: " ++ e])
  | .response _status items => (appendLoop (emitPrnewswire now) (items.take 10) results, [])

/-! ### Aggregator / reporter -/

/-- The fixed "no results" sentinel string. -/
def sentinel : String := "⚠️ No se encontraron fusiones y adquisiciones esta semana."

/-- `drop_duplicates(subset=["titulo"])` with the default `keep="first"`:
keep a row iff its title has not been seen earlier. -/
def dedupAux (seen : List String) : List NewsRecord → List NewsRecord
  | [] => []
  | r :: rs =>
    if seen.contains r.titulo then dedupAux seen rs
    else r :: dedupAux (r.titulo :: seen) rs

def dedupTitulo (rs : List NewsRecord) : List NewsRecord := dedupAux [] rs

/-- The sort relation of `sort_values("fecha", ascending=False)`: raw date
string, descending, compared lexicographically — no timestamp parsing. -/
def fechaGe (a b : NewsRecord) : Prop := b.fecha ≤ a.fecha

instance : DecidableRel fechaGe := fun a b => by
  unfold fechaGe; infer_instance

def sortFecha (rs : List NewsRecord) : List NewsRecord :=
  rs.insertionSort fechaGe

/-- The `results` list after the three sequential fetch calls, starting from
the empty list built at the top of `get_mergers_and_acquisitions`. -/
def collectedResults (now : Int) (tR tM tP : Transport) : List NewsRecord :=
  let r1 := (fetch_reuters_ma now tR []).1
  let r2 := (fetch_marketwatch_ma now tM r1).1
  (fetch_prnewswire_ma now tP r2).1

/-- Return value of `get_mergers_and_acquisitions`: the sentinel string when
`results` is empty, else the deduplicated table sorted by raw date
descending (re-indexed from zero: a list is positionally indexed). -/
def get_mergers_and_acquisitions (now : Int) (tR tM tP : Transport) :
    Sum String (List NewsRecord) :=
  let results := collectedResults now tR tM tP
  if results.isEmpty then Sum.inl sentinel
  else Sum.inr (sortFecha (dedupTitulo results))

/-! ### Filter predicates (the spec's "parsable timestamp within 7 days") -/

/-- The item's publication timestamp parses in the fixed format and the
whole-day delta from `now` is at most 7. -/
def passesFilter (now : Int) (item : FeedItem) : Bool :=
  match parseRFC822 (item.pubDate.getD "") with
  | some tm => decide (tdDays (now - toEpoch tm) ≤ 7)
  | none => false

/-- The MarketWatch condition: keyword match on the title plus the date
filter. -/
def passesMW (now : Int) (item : FeedItem) : Bool :=
  kwMatch (item.title.getD "") && passesFilter now item

/-! ### Helper lemmas -/

theorem emitReuters_isSome (now : Int) (item : FeedItem) :
    (emitReuters now item).isSome = passesFilter now item := by
  simp only [emitReuters, passesFilter]
  cases h : parseRFC822 (item.pubDate.getD "") with
  | none => rfl
  | some tm =>
    by_cases hle : tdDays (now - toEpoch tm) ≤ 7 <;> simp [hle]

theorem emitPrnewswire_isSome (now : Int) (item : FeedItem) :
    (emitPrnewswire now item).isSome = passesFilter now item := by
  simp only [emitPrnewswire, passesFilter]
  cases h : parseRFC822 (item.pubDate.getD "") with
  | none => rfl
  | some tm =>
    by_cases hle : tdDays (now - toEpoch tm) ≤ 7 <;> simp [hle]

theorem emitMarketwatch_isSome (now : Int) (item : FeedItem) :
    (emitMarketwatch now item).isSome = passesMW now item := by
  simp only [emitMarketwatch, passesMW, passesFilter]
  by_cases hkw : kwMatch (item.title.getD "") <;> simp only [hkw, if_true, if_false]
  · cases h : parseRFC822 (item.pubDate.getD "") with
    | none => rfl
    | some tm =>
      by_cases hle : tdDays (now - toEpoch tm) ≤ 7 <;> simp [hle]
  · simp

theorem appendLoop_append (emit : FeedItem → Option NewsRecord)
    (items : List FeedItem) (results : List NewsRecord) :
    appendLoop emit items results = results ++ appendLoop emit items [] := by
  induction items generalizing results with
  | nil => simp [appendLoop]
  | cons i is ih =>
    simp only [appendLoop, List.foldl_cons] at ih ⊢
    cases h : emit i with
    | none => simp only [h]; exact ih results
    | some r => simp only [h]; rw [ih (results ++ [r]), ih ([] ++ [r])]; simp

theorem appendLoop_length (emit : FeedItem → Option NewsRecord)
    (items : List FeedItem) (results : List NewsRecord) :
    (appendLoop emit items results).length
      = results.length + items.countP (fun i => (emit i).isSome) := by
  induction items generalizing results with
  | nil => simp [appendLoop]
  | cons i is ih =>
    simp only [appendLoop, List.foldl_cons] at ih ⊢
    cases h : emit i with
    | none => rw [ih]; simp [List.countP_cons, h]
    | some r => rw [ih]; simp [List.countP_cons, h]; omega

theorem appendLoop_of_none (emit : FeedItem → Option NewsRecord)
    (items : List FeedItem) (results : List NewsRecord)
    (h : ∀ i ∈ items, emit i = none) :
    appendLoop emit items results = results := by
  induction items generalizing results with
  | nil => rfl
  | cons i is ih =>
    simp only [appendLoop, List.foldl_cons] at ih ⊢
    rw [h i (List.mem_cons_self i is)]
    exact ih results (fun j hj => h j (List.mem_cons_of_mem i hj))

/-- `timedelta.days ≤ 7` unfolded: the delta is under 8 whole days. -/
theorem tdDays_le_seven_iff (d : Int) : tdDays d ≤ 7 ↔ d < 8 * 86400 := by
  unfold tdDays
  rw [Int.fdiv_eq_ediv d (by norm_num)]
  omega

theorem dedupAux_sublist (seen : List String) (rs : List NewsRecord) :
    (dedupAux seen rs).Sublist rs := by
  induction rs generalizing seen with
  | nil => simp [dedupAux]
  | cons r rs ih =>
    simp only [dedupAux]
    split
    · exact (ih seen).trans (List.sublist_cons_self r rs)
    · exact List.Sublist.cons₂ r (ih _)

theorem titulo_not_seen_of_mem_dedupAux (rs : List NewsRecord) (r : NewsRecord) :
    ∀ seen : List String, r ∈ dedupAux seen rs → r.titulo ∉ seen := by
  induction rs with
  | nil => intro seen h; simp [dedupAux] at h
  | cons s rs ih =>
    intro seen h
    simp only [dedupAux] at h
    by_cases hc : seen.contains s.titulo
    · rw [if_pos hc] at h
      exact ih seen h
    · rw [if_neg hc] at h
      rcases List.mem_cons.mp h with rfl | hm
      · simpa using hc
      · have hnot := ih _ hm
        intro hmem
        exact hnot (List.mem_cons_of_mem _ hmem)

theorem dedupAux_pairwise (seen : List String) (rs : List NewsRecord) :
    (dedupAux seen rs).Pairwise (fun a b => a.titulo ≠ b.titulo) := by
  induction rs generalizing seen with
  | nil => simp [dedupAux]
  | cons r rs ih =>
    simp only [dedupAux]
    split
    · exact ih seen
    · refine List.Pairwise.cons ?_ (ih _)
      intro b hb heq
      have hnot := titulo_not_seen_of_mem_dedupAux _ _ _ hb
      exact hnot (heq ▸ List.mem_cons_self _ _)

theorem dedupAux_find (rs : List NewsRecord) :
    ∀ (seen : List String) (t : String), t ∉ seen →
      (dedupAux seen rs).find? (fun s => s.titulo == t)
        = rs.find? (fun s => s.titulo == t) := by
  induction rs with
  | nil => intro seen t h; rfl
  | cons r rs ih =>
    intro seen t h
    simp only [dedupAux]
    by_cases hc : seen.contains r.titulo
    · have hne : r.titulo ≠ t := by
        intro heq
        exact h (heq ▸ (by simpa using hc))
      rw [if_pos hc, ih seen t h, List.find?_cons_of_neg _ (by simpa using hne)]
    · rw [if_neg hc]
      by_cases ht : r.titulo = t
      · rw [List.find?_cons_of_pos _ (by simpa using ht),
            List.find?_cons_of_pos _ (by simpa using ht)]
      · rw [List.find?_cons_of_neg _ (by simpa using ht),
            List.find?_cons_of_neg _ (by simpa using ht)]
        exact ih (r.titulo :: seen) t (by
          intro hmem
          rcases List.mem_cons.mp hmem with heq | hmem2
          · exact ht heq.symm
          · exact h hmem2)

instance : IsTotal NewsRecord fechaGe :=
  ⟨fun a b => le_total b.fecha a.fecha⟩

instance : IsTrans NewsRecord fechaGe :=
  ⟨fun _ _ _ h1 h2 => le_trans h2 h1⟩

theorem sortFecha_sorted (rs : List NewsRecord) :
    (sortFecha rs).Pairwise fechaGe :=
  List.sorted_insertionSort fechaGe rs

theorem sortFecha_perm (rs : List NewsRecord) :
    (sortFecha rs).Perm rs :=
  List.perm_insertionSort fechaGe rs

theorem emitReuters_eq_some (now : Int) (item : FeedItem)
    (h : passesFilter now item = true) :
    emitReuters now item = some (reutersRecord item) := by
  simp only [passesFilter] at h
  cases hp : parseRFC822 (item.pubDate.getD "") with
  | none => rw [hp] at h; exact absurd h (by simp)
  | some tm =>
    rw [hp] at h
    simp only [emitReuters, hp, if_pos (of_decide_eq_true h)]

theorem emitPrnewswire_eq_some (now : Int) (item : FeedItem)
    (h : passesFilter now item = true) :
    emitPrnewswire now item = some (prnewswireRecord item) := by
  simp only [passesFilter] at h
  cases hp : parseRFC822 (item.pubDate.getD "") with
  | none => rw [hp] at h; exact absurd h (by simp)
  | some tm =>
    rw [hp] at h
    simp only [emitPrnewswire, hp, if_pos (of_decide_eq_true h)]

theorem appendLoop_one (emit : FeedItem → Option NewsRecord) (i : FeedItem) :
    appendLoop emit [i] [] = (emit i).toList := by
  cases h : emit i <;> simp [appendLoop, h]

theorem appendLoop_two (emit : FeedItem → Option NewsRecord) (i1 i2 : FeedItem)
    (r1 r2 : NewsRecord) (h1 : emit i1 = some r1) (h2 : emit i2 = some r2) :
    appendLoop emit [i1, i2] [] = [r1, r2] := by
  simp [appendLoop, h1, h2]

theorem fetch_reuters_single (now : Int) (status : Nat) (item : FeedItem) :
    (fetch_reuters_ma now (.response status [item]) []).1
      = (emitReuters now item).toList := by
  simp only [fetch_reuters_ma]
  exact appendLoop_one _ _

theorem fetch_prnewswire_single (now : Int) (status : Nat) (item : FeedItem) :
    (fetch_prnewswire_ma now (.response status [item]) []).1
      = (emitPrnewswire now item).toList := by
  simp only [fetch_prnewswire_ma]
  exact appendLoop_one _ _

/-! ### Concrete sample data -/

/-- A well-formed RFC-822 date: the Unix epoch instant. -/
def epochDate : String := "Thu, 01 Jan 1970 00:00:00 +0000"

/-- What `parseRFC822 epochDate` produces. -/
def epochTm : Tm :=
  { year := 1970, month := 1, day := 1, hour := 0, minute := 0, second := 0, tz := 0 }

/-- A fully-populated feed item dated at the epoch. -/
def sampleItem : FeedItem :=
  { title := some "Acme Corp acquires Beta Inc"
  , description := some "Acme buys Beta"
  , link := some "https://example.com/acme"
  , pubDate := some epochDate }

/-! ### Claims -/

/-- Claim C1: on a successful response, each fetcher appends exactly one
record per processed item that passes its filters: for Reuters and
PR Newswire the processed items are the first 10 and the filter is
"timestamp parses and lies within the 7-day window" (`passesFilter`);
for MarketWatch all items are processed and the filter additionally
requires a case-insensitive keyword match on the title (`passesMW`).
The new length of the shared collection is the old length plus that
count `K`. -/
theorem claim1_fetcher_counts (now : Int) (status : Nat) (items : List FeedItem)
    (results : List NewsRecord) :
    ((fetch_reuters_ma now (.response status items) results).1).length
        = results.length + (items.take 10).countP (passesFilter now)
    ∧ ((fetch_marketwatch_ma now (.response status items) results).1).length
        = results.length + items.countP (passesMW now)
    ∧ ((fetch_prnewswire_ma now (.response status items) results).1).length
        = results.length + (items.take 10).countP (passesFilter now) := by
  refine ⟨?_, ?_, ?_⟩
  · simp only [fetch_reuters_ma]
    rw [appendLoop_length]
    congr 1
    exact List.countP_congr fun i _ => by rw [emitReuters_isSome]
  · simp only [fetch_marketwatch_ma]
    rw [appendLoop_length]
    congr 1
    exact List.countP_congr fun i _ => by rw [emitMarketwatch_isSome]
  · simp only [fetch_prnewswire_ma]
    rw [appendLoop_length]
    congr 1
    exact List.countP_congr fun i _ => by rw [emitPrnewswire_isSome]

/-- Claim C2 counterexample: the claim's "kept iff the delta is at most
7 days" is false.  At `now = 7·86400 + 3600` an item published at the epoch
has a delta of 7 days and 1 hour — strictly more than 7 days — yet the
fetcher keeps it, because the code compares `timedelta.days` (the floored
whole-day count, here 7) with 7. -/
theorem claim2_counterexample :
    parseRFC822 epochDate = some epochTm
    ∧ toEpoch epochTm = 0
    ∧ ¬((7 * 86400 + 3600 : Int) - toEpoch epochTm ≤ 7 * 86400)
    ∧ (fetch_reuters_ma (7 * 86400 + 3600) (.response 200 [sampleItem]) []).1 ≠ [] := by
  refine ⟨by decide, by decide, by decide, by decide⟩

/-- Claim C2 (amended): for an item whose timestamp parses, the Reuters and
PR Newswire fetchers keep it iff `timedelta.days` of `now - published_at`
is at most 7, i.e. iff the delta is strictly less than 8 days; in
particular any future-dated item (negative delta) is kept. -/
theorem claim2_window_floor (now : Int) (status : Nat) (item : FeedItem) (tm : Tm)
    (h : parseRFC822 (item.pubDate.getD "") = some tm) :
    ((fetch_reuters_ma now (.response status [item]) []).1 ≠ []
        ↔ now - toEpoch tm < 8 * 86400)
    ∧ ((fetch_prnewswire_ma now (.response status [item]) []).1 ≠ []
        ↔ now - toEpoch tm < 8 * 86400)
    ∧ (now - toEpoch tm < 0 →
        (fetch_reuters_ma now (.response status [item]) []).1 ≠ []) := by
  have hpass : passesFilter now item = decide (tdDays (now - toEpoch tm) ≤ 7) := by
    simp [passesFilter, h]
  have hiffR : (fetch_reuters_ma now (.response status [item]) []).1 ≠ []
      ↔ now - toEpoch tm < 8 * 86400 := by
    rw [fetch_reuters_single]
    cases he : emitReuters now item with
    | none =>
      have : passesFilter now item = false := by
        rw [← emitReuters_isSome, he]; rfl
      rw [hpass] at this
      simp only [Option.toList]
      constructor
      · intro hne; exact absurd rfl hne
      · intro hlt
        exact absurd this (by simp [(tdDays_le_seven_iff _).mpr hlt])
    | some r =>
      have : passesFilter now item = true := by
        rw [← emitReuters_isSome, he]; rfl
      rw [hpass] at this
      have hle := of_decide_eq_true this
      simp only [Option.toList]
      constructor
      · intro _; exact (tdDays_le_seven_iff _).mp hle
      · intro _; simp
  have hiffP : (fetch_prnewswire_ma now (.response status [item]) []).1 ≠ []
      ↔ now - toEpoch tm < 8 * 86400 := by
    rw [fetch_prnewswire_single]
    cases he : emitPrnewswire now item with
    | none =>
      have : passesFilter now item = false := by
        rw [← emitPrnewswire_isSome, he]; rfl
      rw [hpass] at this
      simp only [Option.toList]
      constructor
      · intro hne; exact absurd rfl hne
      · intro hlt
        exact absurd this (by simp [(tdDays_le_seven_iff _).mpr hlt])
    | some r =>
      simp only [Option.toList]
      constructor
      · intro _
        have : passesFilter now item = true := by
          rw [← emitPrnewswire_isSome, he]; rfl
        rw [hpass] at this
        exact (tdDays_le_seven_iff _).mp (of_decide_eq_true this)
      · intro _; simp
  refine ⟨hiffR, hiffP, fun hneg => hiffR.mpr (by omega)⟩

/-- Claim C2 witness: at `now` three days after the epoch, the amended
equivalence applies to the epoch-dated sample item. -/
theorem claim2_witness :
    ((fetch_reuters_ma (3 * 86400) (.response 200 [sampleItem]) []).1 ≠ []
      ↔ (3 * 86400 : Int) - toEpoch epochTm < 8 * 86400) :=
  (claim2_window_floor (3 * 86400) 200 sampleItem epochTm (by decide)).1

/-- Claim C3 counterexample: a non-2xx response does not trigger the
source-tagged error message, and does not guarantee zero records.  The code
never raises for status, so a status-500 response whose body contains a
recent parsable item yields one appended record and an empty log — the
claim predicted an error message and zero records. -/
theorem claim3_counterexample :
    (fetch_reuters_ma 0 (.response 500 [sampleItem]) []).1.length = 1
    ∧ (fetch_reuters_ma 0 (.response 500 [sampleItem]) []).2 = [] := by
  exact ⟨by decide, by decide⟩

/-- Claim C3 (amended): whenever the HTTP request raises — a timeout or a
connection error — the fetcher prints exactly one source-tagged error line
and appends zero records, with no retry; a non-2xx status is not detected
(the response body is processed like any other). -/
theorem claim3_exception_abandons (now : Int) (results : List NewsRecord)
    (msg : String) :
    fetch_reuters_ma now (.timeout msg) results
        = (results, ["[Reuters] Error: " ++ msg])
    ∧ fetch_reuters_ma now (.connError msg) results
        = (results, ["[Reuters] Error: " ++ msg])
    ∧ fetch_marketwatch_ma now (.timeout msg) results
        = (results, ["[MarketWatch] Error: " ++ msg])
    ∧ fetch_marketwatch_ma now (.connError msg) results
        = (results, ["[MarketWatch] Error: " ++ msg])
    ∧ fetch_prnewswire_ma now (.timeout msg) results
        = (results, ["[PR Newswire] Error: " ++ msg])
    ∧ fetch_prnewswire_ma now (.connError msg) results
        = (results, ["[PR Newswire] Error: " ++ msg]) :=
  ⟨rfl, rfl, rfl, rfl, rfl, rfl⟩

/-- Claim C4: the aggregator returns the fixed sentinel string (the `inl`
branch) exactly when the three fetchers together appended zero records, and
a table (the `inr` branch) exactly otherwise. -/
theorem claim4_empty_sentinel (now : Int) (tR tM tP : Transport) :
    (get_mergers_and_acquisitions now tR tM tP = Sum.inl sentinel
        ↔ collectedResults now tR tM tP = [])
    ∧ ((∃ table, get_mergers_and_acquisitions now tR tM tP = Sum.inr table)
        ↔ collectedResults now tR tM tP ≠ []) := by
  unfold get_mergers_and_acquisitions
  by_cases h : collectedResults now tR tM tP = [] <;> simp [h]

/-- Claim C4 witness: three failed fetches collect nothing and the sentinel
string comes back. -/
theorem claim4_witness :
    get_mergers_and_acquisitions 0 (.timeout "t") (.timeout "t") (.timeout "t")
      = Sum.inl sentinel :=
  (claim4_empty_sentinel 0 (.timeout "t") (.timeout "t") (.timeout "t")).1.mpr
    (by decide)

/-- Claim C5: deduplication keeps, for every title, exactly the first record
inserted with that title, preserving insertion order: the deduplicated list
is a sublist of the input (order-preserving, removals only), its titles are
pairwise distinct (so a later record with a title seen earlier — even from
a different source — is gone), and for every title the first matching
record is unchanged (first occurrence wins). -/
theorem claim5_dedup_first_wins (rs : List NewsRecord) :
    (dedupTitulo rs).Sublist rs
    ∧ (dedupTitulo rs).Pairwise (fun a b => a.titulo ≠ b.titulo)
    ∧ ∀ t : String, (dedupTitulo rs).find? (fun s => s.titulo == t)
        = rs.find? (fun s => s.titulo == t) :=
  ⟨dedupAux_sublist [] rs, dedupAux_pairwise [] rs,
   fun t => dedupAux_find rs [] t (by simp)⟩

/-- Two same-titled records from different sources, for the C5 witness. -/
def recA : NewsRecord :=
  { fuente := "Reuters", titulo := "XYZ Merger Announced"
  , descripcion := "a", url := "u1", fecha := "d1" }

/-- See `recA`. -/
def recB : NewsRecord :=
  { fuente := "PR Newswire", titulo := "XYZ Merger Announced"
  , descripcion := "b", url := "u2", fecha := "d2" }

/-- Claim C5 witness: with two same-titled records from different sources,
the first survives and the lookup agrees with the original list. -/
theorem claim5_witness :
    (dedupTitulo [recA, recB]).find? (fun s => s.titulo == "XYZ Merger Announced")
        = [recA, recB].find? (fun s => s.titulo == "XYZ Merger Announced")
    ∧ dedupTitulo [recA, recB] = [recA] :=
  ⟨(claim5_dedup_first_wins [recA, recB]).2.2 "XYZ Merger Announced", by decide⟩

/-- Claim C6: when anything was collected, the returned table is a
permutation of the deduplicated collection, sorted descending under the
`String` lexicographic order on the raw `fecha` field (the comparison is on
the unparsed string — no timestamp parsing appears in the sort key), and
its rows are indexed `0, 1, 2, …` from zero. -/
theorem claim6_sort_raw_desc (now : Int) (tR tM tP : Transport)
    (h : collectedResults now tR tM tP ≠ []) :
    ∃ table, get_mergers_and_acquisitions now tR tM tP = Sum.inr table
      ∧ table.Pairwise (fun a b : NewsRecord => b.fecha ≤ a.fecha)
      ∧ table.Perm (dedupTitulo (collectedResults now tR tM tP))
      ∧ table.enum.map Prod.fst = List.range table.length := by
  refine ⟨sortFecha (dedupTitulo (collectedResults now tR tM tP)), ?_, ?_, ?_, ?_⟩
  · unfold get_mergers_and_acquisitions
    simp [h]
  · exact sortFecha_sorted _
  · exact sortFecha_perm _
  · exact List.enum_map_fst _

/-- Claim C6 witness: one successful fetch of the sample item produces a
table with the stated shape. -/
theorem claim6_witness :
    ∃ table,
      get_mergers_and_acquisitions 0 (.response 200 [sampleItem])
          (.timeout "t") (.timeout "t") = Sum.inr table
      ∧ table.Pairwise (fun a b : NewsRecord => b.fecha ≤ a.fecha)
      ∧ table.Perm (dedupTitulo (collectedResults 0 (.response 200 [sampleItem])
            (.timeout "t") (.timeout "t")))
      ∧ table.enum.map Prod.fst = List.range table.length :=
  claim6_sort_raw_desc 0 (.response 200 [sampleItem]) (.timeout "t") (.timeout "t")
    (by decide)

/-- Claim C7: for a kept item, the stored description is the first
200 characters of the item's description (`s[:200]`), hence exactly
200 characters whenever the original is at least that long, and the
sentinel `"N/A"` when the description is missing.  Stated for the Reuters
and PR Newswire fetchers, whose records share the same description logic. -/
theorem claim7_truncation (now : Int) (status : Nat) (item : FeedItem)
    (h : passesFilter now item = true) :
    ∃ rec recP,
      (fetch_reuters_ma now (.response status [item]) []).1 = [rec]
      ∧ (fetch_prnewswire_ma now (.response status [item]) []).1 = [recP]
      ∧ rec.descripcion = (match item.description with
          | some d => strTake 200 d
          | none => "N/A")
      ∧ recP.descripcion = rec.descripcion
      ∧ (∀ d, item.description = some d →
          rec.descripcion.length = min 200 d.length)
      ∧ (∀ d, item.description = some d → 200 ≤ d.length →
          rec.descripcion.length = 200)
      ∧ (item.description = none → rec.descripcion = "N/A") := by
  refine ⟨reutersRecord item, prnewswireRecord item, ?_, ?_, rfl, rfl, ?_, ?_, ?_⟩
  · rw [fetch_reuters_single, emitReuters_eq_some now item h]; rfl
  · rw [fetch_prnewswire_single, emitPrnewswire_eq_some now item h]; rfl
  · intro d hd
    simp only [reutersRecord, hd]
    show (d.data.take 200).length = min 200 d.data.length
    exact List.length_take 200 d.data
  · intro d hd h200
    simp only [reutersRecord, hd]
    show (d.data.take 200).length = 200
    rw [List.length_take]
    have hlen : d.length = d.data.length := rfl
    omega
  · intro hd
    simp [reutersRecord, hd]

/-- A 250-character description, for the C7 witness. -/
def longDesc : String := String.mk (List.replicate 250 'a')

/-- An epoch-dated item with a 250-character description. -/
def longItem : FeedItem :=
  { title := some "Long description"
  , description := some longDesc
  , link := none
  , pubDate := some epochDate }

/-- Claim C7 witness: the 250-character description of `longItem` is kept
truncated. -/
theorem claim7_witness :
    ∃ rec recP,
      (fetch_reuters_ma 0 (.response 200 [longItem]) []).1 = [rec]
      ∧ (fetch_prnewswire_ma 0 (.response 200 [longItem]) []).1 = [recP]
      ∧ rec.descripcion = (match longItem.description with
          | some d => strTake 200 d
          | none => "N/A")
      ∧ recP.descripcion = rec.descripcion
      ∧ (∀ d, longItem.description = some d →
          rec.descripcion.length = min 200 d.length)
      ∧ (∀ d, longItem.description = some d → 200 ≤ d.length →
          rec.descripcion.length = 200)
      ∧ (longItem.description = none → rec.descripcion = "N/A") :=
  claim7_truncation 0 200 longItem (by decide)

/-- Claim C8: items whose timestamp does not parse in the fixed format are
dropped silently by all three fetchers, whatever `now` is: nothing is
appended and nothing is printed. -/
theorem claim8_unparsable_dropped (now : Int) (status : Nat)
    (items : List FeedItem) (results : List NewsRecord)
    (h : ∀ item ∈ items, parseRFC822 (item.pubDate.getD "") = none) :
    fetch_reuters_ma now (.response status items) results = (results, [])
    ∧ fetch_marketwatch_ma now (.response status items) results = (results, [])
    ∧ fetch_prnewswire_ma now (.response status items) results = (results, []) := by
  have hR : ∀ i ∈ items.take 10, emitReuters now i = none := by
    intro i hi
    have hp := h i (List.take_subset _ _ hi)
    simp [emitReuters, hp]
  have hM : ∀ i ∈ items, emitMarketwatch now i = none := by
    intro i hi
    have hp := h i hi
    simp only [emitMarketwatch, hp]
    split <;> rfl
  have hP : ∀ i ∈ items.take 10, emitPrnewswire now i = none := by
    intro i hi
    have hp := h i (List.take_subset _ _ hi)
    simp [emitPrnewswire, hp]
  refine ⟨?_, ?_, ?_⟩
  · simp only [fetch_reuters_ma]
    rw [appendLoop_of_none _ _ _ hR]
  · simp only [fetch_marketwatch_ma]
    rw [appendLoop_of_none _ _ _ hM]
  · simp only [fetch_prnewswire_ma]
    rw [appendLoop_of_none _ _ _ hP]

/-- An item with an ISO-8601 timestamp, which the fixed format rejects. -/
def isoItem : FeedItem :=
  { title := some "ISO dated", description := none, link := none
  , pubDate := some "2024-01-05T12:00:00Z" }

/-- An item with no `pubDate` tag at all (`date_str` becomes `""`). -/
def noDateItem : FeedItem :=
  { title := some "Missing pubDate", description := none, link := none
  , pubDate := none }

/-- Claim C8 witness: an ISO-dated item and a dateless item are both
silently dropped by all three fetchers. -/
theorem claim8_witness :
    fetch_reuters_ma 0 (.response 200 [isoItem, noDateItem]) [] = ([], [])
    ∧ fetch_marketwatch_ma 0 (.response 200 [isoItem, noDateItem]) [] = ([], [])
    ∧ fetch_prnewswire_ma 0 (.response 200 [isoItem, noDateItem]) [] = ([], []) :=
  claim8_unparsable_dropped 0 200 [isoItem, noDateItem] [] (by decide)

/-- Claim C9: two distinct kept items that both lack a title are each
recorded with the sentinel title `"N/A"` by the Reuters and PR Newswire
fetchers, and title deduplication then collapses the two records to the
first one alone — the second untitled item is silently discarded. -/
theorem claim9_untitled_collapse (now : Int) (status : Nat) (i1 i2 : FeedItem)
    (h1 : i1.title = none) (h2 : i2.title = none)
    (hp1 : passesFilter now i1 = true) (hp2 : passesFilter now i2 = true) :
    ∃ r1 r2 p1 p2,
      (fetch_reuters_ma now (.response status [i1, i2]) []).1 = [r1, r2]
      ∧ (fetch_prnewswire_ma now (.response status [i1, i2]) []).1 = [p1, p2]
      ∧ r1.titulo = "N/A" ∧ r2.titulo = "N/A"
      ∧ p1.titulo = "N/A" ∧ p2.titulo = "N/A"
      ∧ dedupTitulo [r1, r2] = [r1]
      ∧ dedupTitulo [p1, p2] = [p1] := by
  have ht1 : (reutersRecord i1).titulo = "N/A" := by simp [reutersRecord, h1]
  have ht2 : (reutersRecord i2).titulo = "N/A" := by simp [reutersRecord, h1, h2]
  have hq1 : (prnewswireRecord i1).titulo = "N/A" := by simp [prnewswireRecord, h1]
  have hq2 : (prnewswireRecord i2).titulo = "N/A" := by simp [prnewswireRecord, h2]
  refine ⟨reutersRecord i1, reutersRecord i2, prnewswireRecord i1, prnewswireRecord i2,
    ?_, ?_, ht1, ht2, hq1, hq2, ?_, ?_⟩
  · show appendLoop (emitReuters now) (List.take 10 [i1, i2]) [] = _
    rw [show List.take 10 [i1, i2] = [i1, i2] from rfl]
    exact appendLoop_two _ _ _ _ _
      (emitReuters_eq_some now i1 hp1) (emitReuters_eq_some now i2 hp2)
  · show appendLoop (emitPrnewswire now) (List.take 10 [i1, i2]) [] = _
    rw [show List.take 10 [i1, i2] = [i1, i2] from rfl]
    exact appendLoop_two _ _ _ _ _
      (emitPrnewswire_eq_some now i1 hp1) (emitPrnewswire_eq_some now i2 hp2)
  · simp [dedupTitulo, dedupAux, ht1, ht2]
  · simp [dedupTitulo, dedupAux, hq1, hq2]

/-- First untitled item for the C9 witness. -/
def untitled1 : FeedItem :=
  { title := none, description := some "first untitled item", link := none
  , pubDate := some epochDate }

/-- Second, distinct untitled item for the C9 witness. -/
def untitled2 : FeedItem :=
  { title := none, description := some "second untitled item", link := none
  , pubDate := some epochDate }

/-- Claim C9 witness: the two distinct untitled sample items collapse to a
single record after deduplication. -/
theorem claim9_witness :
    ∃ r1 r2 p1 p2,
      (fetch_reuters_ma 0 (.response 200 [untitled1, untitled2]) []).1 = [r1, r2]
      ∧ (fetch_prnewswire_ma 0 (.response 200 [untitled1, untitled2]) []).1 = [p1, p2]
      ∧ r1.titulo = "N/A" ∧ r2.titulo = "N/A"
      ∧ p1.titulo = "N/A" ∧ p2.titulo = "N/A"
      ∧ dedupTitulo [r1, r2] = [r1]
      ∧ dedupTitulo [p1, p2] = [p1] :=
  claim9_untitled_collapse 0 200 untitled1 untitled2 rfl rfl (by decide) (by decide)

/-- Claim C10: fetchers only append.  Whatever the transport outcome — a
successful response, a partial harvest with silently dropped items, or a
raised exception — the shared collection after a fetcher runs is the prior
collection followed by the fetcher's own new records; nothing already
present is removed or altered. -/
theorem claim10_append_only (now : Int) (t : Transport) (results : List NewsRecord) :
    (fetch_reuters_ma now t results).1 = results ++ (fetch_reuters_ma now t []).1
    ∧ (fetch_marketwatch_ma now t results).1
        = results ++ (fetch_marketwatch_ma now t []).1
    ∧ (fetch_prnewswire_ma now t results).1
        = results ++ (fetch_prnewswire_ma now t []).1 := by
  refine ⟨?_, ?_, ?_⟩ <;>
    cases t <;>
      simp only [fetch_reuters_ma, fetch_marketwatch_ma, fetch_prnewswire_ma] <;>
        first
          | simp
          | exact appendLoop_append _ _ _

end StockNoti
